import Mathlib

/-!
Shallow embedding of `src/transformer/before/visitor/visit/visit-call-expression.ts`
from the cjstoesm repository: the import-binding decision engine that rewrites
CommonJS `require(...)` call expressions into static import declarations.

The AST-recognition utilities consumed by the visitor (`isRequireCall`,
`findNodeUp`, `getModuleExportsFromRequireDataInContext`) live outside the
embedded source file; their results are taken as inputs of the embedded
function, mirroring how the visitor consumes them.  The visitor-context
operations (`addImport`, the `hasLocalFor.../getLocalFor...` queries,
`isIdentifierFree`, `getFreeIdentifier`) and `generateNameFromModuleSpecifier`
are likewise declared outside the embedded file; they are modelled from the
specification's Import Registry contract (section 4.2) as noted on each
definition.
-/

namespace CjsToEsm

/-- Result of the external `isRequireCall` classifier: whether the call node is
a `require(...)` call, and its statically determined module specifier, if any. -/
structure RequireData where
  matched : Bool
  moduleSpecifier : Option String
deriving DecidableEq

/-- The exports descriptor of a module, as produced by the external resolver:
whether the module has a default export, and the set of its named exports.
`Option ModuleExports` with `none` models an unknown (`null`) descriptor. -/
structure ModuleExports where
  hasDefaultExport : Bool
  namedExports : List String
deriving DecidableEq

/-- An emitted import specifier, `propertyName as name`.  `propertyName = none`
is the non-aliased form `import { name }`; `propertyName = some p` is the
aliased form `import { p as name }`. -/
structure ImportSpecifierE where
  propertyName : Option String
  name : String
deriving DecidableEq

/-- The import-clause shape of an emitted import declaration: a bare
side-effect import, a default-binding import, a namespace import, or a
named-bindings import. -/
inductive ImportClauseKind where
  | bare
  | defaultClause (local_ : String)
  | namespaceClause (local_ : String)
  | named (specifiers : List ImportSpecifierE)
deriving DecidableEq

/-- An emitted import declaration: its clause and its module specifier. -/
structure ImportDeclarationE where
  clause : ImportClauseKind
  moduleSpecifier : String
deriving DecidableEq

/-- Modelled from the spec: the per-file visitor context (Import Registry,
section 4.2), which the source file receives as `context` but whose
implementation is outside the embedded file.  It carries the mode flags read
by the visitor, the ledger of already-added imports, and the set of
identifiers bound or reserved in the file. -/
structure VisitorContext where
  onlyExports : Bool
  debug : Bool
  imports : List ImportDeclarationE
  boundNames : List String
deriving DecidableEq

/-- The locals of all default-binding import declarations recorded for a
module specifier, in insertion order. -/
def defaultImportLocals : List ImportDeclarationE → String → List String
  | [], _ => []
  | d :: rest, m =>
    (if d.moduleSpecifier == m then
      match d.clause with
      | .defaultClause l => [l]
      | _ => []
     else []) ++ defaultImportLocals rest m

/-- The locals of all namespace import declarations recorded for a module
specifier, in insertion order. -/
def namespaceImportLocals : List ImportDeclarationE → String → List String
  | [], _ => []
  | d :: rest, m =>
    (if d.moduleSpecifier == m then
      match d.clause with
      | .namespaceClause l => [l]
      | _ => []
     else []) ++ namespaceImportLocals rest m

/-- All locals bound for a given exported (property) name by named-import
declarations recorded for a module specifier, in insertion order.  The
exported name of a specifier is its `propertyName` when aliased, else its
`name`. -/
def namedLocalsForPropertyName : List ImportDeclarationE → String → String → List String
  | [], _, _ => []
  | d :: rest, p, m =>
    (if d.moduleSpecifier == m then
      match d.clause with
      | .named specs =>
        specs.filterMap fun s => if (s.propertyName.getD s.name) == p then some s.name else none
      | _ => []
     else []) ++ namedLocalsForPropertyName rest p m

/-- Whether a bare (binding-free) import of the module specifier has been
recorded. -/
def hasBareImport : List ImportDeclarationE → String → Bool
  | [], _ => false
  | d :: rest, m =>
    (d.moduleSpecifier == m &&
      (match d.clause with
       | .bare => true
       | _ => false)) || hasBareImport rest m

/-- Modelled from the spec: registry query `isBareImported` — whether the
module is already imported without any bindings. -/
def isModuleSpecifierImportedWithoutLocals (ctx : VisitorContext) (m : String) : Bool :=
  hasBareImport ctx.imports m

/-- Modelled from the spec: registry query `hasDefault` — the local of an
already-recorded default-binding import for the module, if any. -/
def getLocalForDefaultImportFromModule (ctx : VisitorContext) (m : String) : Option String :=
  (defaultImportLocals ctx.imports m).head?

/-- Whether a default-binding import local is recorded for the module. -/
def hasLocalForDefaultImportFromModule (ctx : VisitorContext) (m : String) : Bool :=
  (getLocalForDefaultImportFromModule ctx m).isSome

/-- Modelled from the spec: registry query `hasNamespace` — the local of an
already-recorded namespace import for the module, if any. -/
def getLocalForNamespaceImportFromModule (ctx : VisitorContext) (m : String) : Option String :=
  (namespaceImportLocals ctx.imports m).head?

/-- Whether a namespace import local is recorded for the module. -/
def hasLocalForNamespaceImportFromModule (ctx : VisitorContext) (m : String) : Bool :=
  (getLocalForNamespaceImportFromModule ctx m).isSome

/-- Modelled from the spec: registry query `hasNamed(exportedName)` — the
local under which the exported name is already imported from the module, if
any. -/
def getLocalForNamedImportPropertyNameFromModule (ctx : VisitorContext) (p m : String) : Option String :=
  (namedLocalsForPropertyName ctx.imports p m).head?

/-- Whether a named-import local is recorded for the exported name. -/
def hasLocalForNamedImportPropertyNameFromModule (ctx : VisitorContext) (p m : String) : Bool :=
  (getLocalForNamedImportPropertyNameFromModule ctx p m).isSome

/-- Modelled from the spec: registry query `isFree(name)` — true iff the name
is not bound anywhere in the file, including names reserved this pass. -/
def isIdentifierFree (ctx : VisitorContext) (name : String) : Bool :=
  !(ctx.boundNames.contains name)

/-- Helper for `getFreeIdentifier`: the first candidate, obtained by
repeatedly suffixing the seed, that is not bound.  The fuel argument bounds
the search. -/
def freshCandidate (bound : List String) (seed : String) : Nat → String
  | 0 => seed
  | n + 1 => if bound.contains seed then freshCandidate bound (seed ++ "$") n else seed

/-- Modelled from the spec: registry operation `fresh(seed)` —
deterministically derives a free identifier from the seed by suffixing,
reserves it, and returns it. -/
def getFreeIdentifier (ctx : VisitorContext) (seed : String) : String × VisitorContext :=
  let name := freshCandidate ctx.boundNames seed (ctx.boundNames.length + 1)
  (name, { ctx with boundNames := name :: ctx.boundNames })

/-- Records an import declaration in the per-file ledger. -/
def addImport (ctx : VisitorContext) (d : ImportDeclarationE) : VisitorContext :=
  { ctx with imports := ctx.imports ++ [d] }

/-- Modelled from the spec: `nameFromSpecifier(specifier)` — derives a seed
identifier from a module specifier.  The spec states no derivation rule, so it
is modelled as the specifier string itself. -/
def generateNameFromModuleSpecifier (moduleSpecifier : String) : String :=
  moduleSpecifier

/-- A name position in the AST, as far as the visitor inspects it: either a
plain identifier (with its text) or anything else (a nested binding pattern, a
string/numeric literal or computed property name, ...), for which the
visitor's `isIdentifier` test fails. -/
inductive AstName where
  | ident (text : String)
  | nonIdent
deriving DecidableEq

/-- One element of an `ObjectBindingPattern`: its optional property name (the
renaming form `{propertyName: name}`) and its binding name. -/
structure BindingElementE where
  propertyName : Option AstName
  name : AstName
deriving DecidableEq

/-- The element- or property-access expression found wrapping the require
call, as inspected by the visitor: a property access carries its name text; an
element access carries its argument's text when the argument is a string
literal. -/
inductive AccessParent where
  | propertyAccess (name : String)
  | elementAccess (stringLiteralText : Option String)
deriving DecidableEq

/-- The binding name of the variable declaration found holding the require
call: a plain identifier, an object binding pattern with its elements, or any
other pattern (for which both `isIdentifier` and `isObjectBindingPattern`
fail). -/
inductive BindingNameKind where
  | ident (name : String)
  | objectBindingPattern (elements : List BindingElementE)
  | otherPattern
deriving DecidableEq

/-- The inputs the visitor derives about one call site from the external
utilities: the `isRequireCall` result, the module-exports descriptor, and the
results of the four upward `findNodeUp` searches (expression statement,
element/property access, variable declaration, call expression). -/
structure CallSiteInfo where
  requireData : RequireData
  moduleExports : Option ModuleExports
  hasExpressionStatementParent : Bool
  elementOrPropertyAccessParent : Option AccessParent
  variableDeclarationName : Option BindingNameKind
  hasCallExpressionParent : Bool
deriving DecidableEq

/-- A property of the object literal the visitor substitutes for the call:
`propertyAssignment key value` is `key: value` (with an identifier
initializer), `shorthandPropertyAssignment name` is the shorthand `name`. -/
inductive ObjectLiteralPropertyE where
  | propertyAssignment (name : String) (initializer : String)
  | shorthandPropertyAssignment (name : String)
deriving DecidableEq

/-- The visitor's result for the call node: continue into children
(not a require call / exports-only mode), remove the node, replace it by an
identifier or an object literal, return it unchanged, or throw a `TypeError`
(debug mode). -/
inductive VisitResultE where
  | childContinuation
  | removed
  | identifier (name : String)
  | objectLiteral (properties : List ObjectLiteralPropertyE)
  | unchanged
  | throwTypeError (message : String)
deriving DecidableEq

/-- The statically evaluated right value of the wrapping access expression
(source lines 115-127): the name of a property access, or the text of an
element access argument when it is a string literal. -/
def accessRightValue : Option AccessParent → Option String
  | some (.propertyAccess name) => some name
  | some (.elementAccess t) => t
  | none => none

/-- Source lines 75-101: the branch taken when nothing is known about the
module's exports, it has no named exports, or the call is an expression
statement of a module without default export.  As an expression statement the
call is dropped, adding a bare import unless one exists; otherwise the default
local is reused if recorded, else a fresh default-binding import is added and
an identifier returned. -/
def whenNoNamedExports (moduleSpecifier : String) (partOfExpressionStatement : Bool)
    (ctx : VisitorContext) : VisitResultE × VisitorContext :=
  if partOfExpressionStatement then
    if !(isModuleSpecifierImportedWithoutLocals ctx moduleSpecifier) then
      (.removed, addImport ctx ⟨.bare, moduleSpecifier⟩)
    else
      (.removed, ctx)
  else
    match getLocalForDefaultImportFromModule ctx moduleSpecifier with
    | some local_ => (.identifier local_, ctx)
    | none =>
      let fresh := getFreeIdentifier ctx (generateNameFromModuleSpecifier moduleSpecifier)
      (.identifier fresh.1, addImport fresh.2 ⟨.defaultClause fresh.1, moduleSpecifier⟩)

/-- The default-or-namespace whole-module resolution chain, repeated verbatim
at source lines 136-161, 237-268, 325-356 and 384-415: reuse a recorded
default local when the module has a default export, else reuse a recorded
namespace local when it has none, else reserve a fresh identifier derived from
the module specifier and add a default-binding import (default export present)
or a namespace import (no default export). -/
def resolveDefaultOrNamespaceIdentifier (moduleExports : ModuleExports) (moduleSpecifier : String)
    (ctx : VisitorContext) : String × VisitorContext :=
  if moduleExports.hasDefaultExport && hasLocalForDefaultImportFromModule ctx moduleSpecifier then
    ((getLocalForDefaultImportFromModule ctx moduleSpecifier).getD (""), ctx)
  else if !moduleExports.hasDefaultExport && hasLocalForNamespaceImportFromModule ctx moduleSpecifier then
    ((getLocalForNamespaceImportFromModule ctx moduleSpecifier).getD (""), ctx)
  else
    let fresh := getFreeIdentifier ctx (generateNameFromModuleSpecifier moduleSpecifier)
    (fresh.1,
      addImport fresh.2
        ⟨if moduleExports.hasDefaultExport then .defaultClause fresh.1 else .namespaceClause fresh.1,
          moduleSpecifier⟩)

/-- Source lines 211-220: the tail of the named member-access branch — when
the access expression is not itself an expression statement, substitute an
object literal exposing the binding under the accessed name, else drop the
call in favour of the import. -/
def memberAccessResult (rightValue importBindingName : String) (partOfExpressionStatement : Bool)
    (ctx : VisitorContext) : VisitResultE × VisitorContext :=
  if !partOfExpressionStatement then
    (.objectLiteral
      [if importBindingName != rightValue then
        .propertyAssignment rightValue importBindingName
       else
        .shorthandPropertyAssignment importBindingName], ctx)
  else
    (.removed, ctx)

/-- Source lines 130-222: the branch taken when the require call is wrapped in
an element- or property-access expression with a statically known right value.
If the right value is not a named export, fall back to whole-module
resolution and substitute a single-entry object literal; otherwise reuse a
recorded named local, else reuse a recorded namespace local when the module
has no default export, else add a named import of the right value (aliased
when the name is not free). -/
def memberAccessBranch (moduleExports : ModuleExports) (moduleSpecifier rightValue : String)
    (partOfExpressionStatement : Bool) (ctx : VisitorContext) : VisitResultE × VisitorContext :=
  if !(moduleExports.namedExports.contains rightValue) then
    let r := resolveDefaultOrNamespaceIdentifier moduleExports moduleSpecifier ctx
    (.objectLiteral
      [if r.1 != rightValue then
        .propertyAssignment rightValue r.1
       else
        .shorthandPropertyAssignment r.1], r.2)
  else
    match getLocalForNamedImportPropertyNameFromModule ctx rightValue moduleSpecifier with
    | some local_ => memberAccessResult rightValue local_ partOfExpressionStatement ctx
    | none =>
      if !moduleExports.hasDefaultExport && hasLocalForNamespaceImportFromModule ctx moduleSpecifier then
        memberAccessResult rightValue
          ((getLocalForNamespaceImportFromModule ctx moduleSpecifier).getD (""))
          partOfExpressionStatement ctx
      else
        if isIdentifierFree ctx rightValue then
          memberAccessResult rightValue rightValue partOfExpressionStatement
            (addImport ctx ⟨.named [⟨none, rightValue⟩], moduleSpecifier⟩)
        else
          let fresh := getFreeIdentifier ctx rightValue
          memberAccessResult rightValue fresh.1 partOfExpressionStatement
            (addImport fresh.2 ⟨.named [⟨some rightValue, fresh.1⟩], moduleSpecifier⟩)

/-- Source lines 280-320, the body of the loop over the binding elements of a
destructured variable declaration.  A plain element (no property name,
identifier binding name) is handled only when it names a named export: an
already-recorded local goes to the skipped specifiers, else a specifier is
created (aliased when the name is not free).  A renamed element with an
identifier property name always creates a specifier for the property name
(aliased when not free).  Any other element contributes nothing. -/
def visitBindingElement (moduleExports : ModuleExports) (moduleSpecifier : String)
    (acc : List ImportSpecifierE × List ImportSpecifierE × VisitorContext)
    (element : BindingElementE) : List ImportSpecifierE × List ImportSpecifierE × VisitorContext :=
  let importSpecifiers := acc.1
  let skippedImportSpecifiers := acc.2.1
  let ctx := acc.2.2
  match element.propertyName, element.name with
  | none, .ident nameText =>
    if moduleExports.namedExports.contains nameText then
      match getLocalForNamedImportPropertyNameFromModule ctx nameText moduleSpecifier with
      | some local_ =>
        (importSpecifiers,
          skippedImportSpecifiers ++
            [if local_ == nameText then ⟨none, local_⟩ else ⟨some nameText, local_⟩], ctx)
      | none =>
        if isIdentifierFree ctx nameText then
          (importSpecifiers ++ [⟨none, nameText⟩], skippedImportSpecifiers, ctx)
        else
          let fresh := getFreeIdentifier ctx nameText
          (importSpecifiers ++ [⟨some nameText, fresh.1⟩], skippedImportSpecifiers, fresh.2)
    else
      acc
  | some (.ident propText), _ =>
    if isIdentifierFree ctx propText then
      (importSpecifiers ++ [⟨none, propText⟩], skippedImportSpecifiers, ctx)
    else
      let fresh := getFreeIdentifier ctx propText
      (importSpecifiers ++ [⟨some propText, fresh.1⟩], skippedImportSpecifiers, fresh.2)
  | _, _ => acc

/-- Source lines 275-374: the branch taken when the variable declaration
holding the call destructures an object binding pattern.  If the collected
collected specifiers (new plus skipped) do not cover every element, fall back to
whole-module resolution; otherwise add a named import of the new specifiers
(when any) and substitute an object literal over all of them. -/
def destructuredBranch (moduleExports : ModuleExports) (moduleSpecifier : String)
    (elements : List BindingElementE) (ctx : VisitorContext) : VisitResultE × VisitorContext :=
  let folded := elements.foldl (visitBindingElement moduleExports moduleSpecifier) ([], [], ctx)
  let importSpecifiers := folded.1
  let skippedImportSpecifiers := folded.2.1
  let ctx1 := folded.2.2
  if importSpecifiers.length + skippedImportSpecifiers.length != elements.length then
    let r := resolveDefaultOrNamespaceIdentifier moduleExports moduleSpecifier ctx1
    (.identifier r.1, r.2)
  else
    let ctx2 :=
      if importSpecifiers.length > 0 then
        addImport ctx1 ⟨.named importSpecifiers, moduleSpecifier⟩
      else ctx1
    (.objectLiteral
      ((importSpecifiers ++ skippedImportSpecifiers).map fun s =>
        match s.propertyName with
        | some p => .propertyAssignment p s.name
        | none => .shorthandPropertyAssignment s.name), ctx2)

/-- The embedding of `visitCallExpression` (source lines 43-423).  The call
site's syntactic context and the module-exports descriptor arrive
pre-computed in `info`; the visitor context threads through and collects the
added imports. -/
def visitCallExpression (info : CallSiteInfo) (ctx : VisitorContext) : VisitResultE × VisitorContext :=
  if ctx.onlyExports then (.childContinuation, ctx)
  else if !info.requireData.matched then (.childContinuation, ctx)
  else
    match info.requireData.moduleSpecifier with
    | none => (.removed, ctx)
    | some moduleSpecifier =>
      match info.moduleExports with
      | none => whenNoNamedExports moduleSpecifier info.hasExpressionStatementParent ctx
      | some moduleExports =>
        if moduleExports.namedExports.isEmpty ||
            (info.hasExpressionStatementParent && !moduleExports.hasDefaultExport) then
          whenNoNamedExports moduleSpecifier info.hasExpressionStatementParent ctx
        else
          match accessRightValue info.elementOrPropertyAccessParent with
          | some rightValue =>
            memberAccessBranch moduleExports moduleSpecifier rightValue
              info.hasExpressionStatementParent ctx
          | none =>
            match info.variableDeclarationName with
            | some (.ident _) =>
              let r := resolveDefaultOrNamespaceIdentifier moduleExports moduleSpecifier ctx
              (.identifier r.1, r.2)
            | some (.objectBindingPattern elements) =>
              destructuredBranch moduleExports moduleSpecifier elements ctx
            | _ =>
              if info.hasCallExpressionParent then
                let r := resolveDefaultOrNamespaceIdentifier moduleExports moduleSpecifier ctx
                (.identifier r.1, r.2)
              else if ctx.debug then
                (.throwTypeError ("Could not handle require() call"), ctx)
              else
                (.unchanged, ctx)

/-- One file pass over a sequence of call sites: each call site's decision
completes (plan computed, context updated) before the next is processed. -/
def runPass (infos : List CallSiteInfo) (ctx : VisitorContext) : VisitorContext :=
  infos.foldl (fun c i => (visitCallExpression i c).2) ctx

/-! ### Basic lemmas about the registry queries -/

@[simp]
theorem defaultImportLocals_append (l1 l2 : List ImportDeclarationE) (m : String) :
    defaultImportLocals (l1 ++ l2) m = defaultImportLocals l1 m ++ defaultImportLocals l2 m := by
  induction l1 with
  | nil => simp [defaultImportLocals]
  | cons d rest ih => simp [defaultImportLocals, ih]

@[simp]
theorem namespaceImportLocals_append (l1 l2 : List ImportDeclarationE) (m : String) :
    namespaceImportLocals (l1 ++ l2) m = namespaceImportLocals l1 m ++ namespaceImportLocals l2 m := by
  induction l1 with
  | nil => simp [namespaceImportLocals]
  | cons d rest ih => simp [namespaceImportLocals, ih]

@[simp]
theorem namedLocalsForPropertyName_append (l1 l2 : List ImportDeclarationE) (p m : String) :
    namedLocalsForPropertyName (l1 ++ l2) p m
      = namedLocalsForPropertyName l1 p m ++ namedLocalsForPropertyName l2 p m := by
  induction l1 with
  | nil => simp [namedLocalsForPropertyName]
  | cons d rest ih => simp [namedLocalsForPropertyName, ih]

@[simp]
theorem hasBareImport_append (l1 l2 : List ImportDeclarationE) (m : String) :
    hasBareImport (l1 ++ l2) m = (hasBareImport l1 m || hasBareImport l2 m) := by
  induction l1 with
  | nil => simp [hasBareImport]
  | cons d rest ih => simp [hasBareImport, ih, Bool.or_assoc]

@[simp]
theorem getFreeIdentifier_imports (ctx : VisitorContext) (s : String) :
    ((getFreeIdentifier ctx s).2).imports = ctx.imports := rfl

@[simp]
theorem getFreeIdentifier_onlyExports (ctx : VisitorContext) (s : String) :
    ((getFreeIdentifier ctx s).2).onlyExports = ctx.onlyExports := rfl

@[simp]
theorem addImport_imports (ctx : VisitorContext) (d : ImportDeclarationE) :
    (addImport ctx d).imports = ctx.imports ++ [d] := rfl

@[simp]
theorem addImport_onlyExports (ctx : VisitorContext) (d : ImportDeclarationE) :
    (addImport ctx d).onlyExports = ctx.onlyExports := rfl

theorem defaultImportLocals_eq_nil_of_not_hasLocal (ctx : VisitorContext) (m : String)
    (h : hasLocalForDefaultImportFromModule ctx m = false) :
    defaultImportLocals ctx.imports m = [] := by
  unfold hasLocalForDefaultImportFromModule getLocalForDefaultImportFromModule at h
  cases hl : defaultImportLocals ctx.imports m with
  | nil => rfl
  | cons a l => rw [hl] at h; simp at h

theorem namespaceImportLocals_eq_nil_of_not_hasLocal (ctx : VisitorContext) (m : String)
    (h : hasLocalForNamespaceImportFromModule ctx m = false) :
    namespaceImportLocals ctx.imports m = [] := by
  unfold hasLocalForNamespaceImportFromModule getLocalForNamespaceImportFromModule at h
  cases hl : namespaceImportLocals ctx.imports m with
  | nil => rfl
  | cons a l => rw [hl] at h; simp at h

/-- `memberAccessResult` never touches the context. -/
@[simp]
theorem memberAccessResult_ctx (rv n : String) (b : Bool) (ctx : VisitorContext) :
    (memberAccessResult rv n b ctx).2 = ctx := by
  unfold memberAccessResult; split <;> rfl

/-! ### Invariant machinery: at most one default and one namespace entry -/

/-- Whole-module resolution preserves "at most one default and one namespace
whole-module import local per specifier": it only ever adds a binding after checking that
none is recorded. -/
theorem resolve_locals_le (me : ModuleExports) (ms : String) (ctx : VisitorContext) (m : String)
    (hd : (defaultImportLocals ctx.imports m).length ≤ 1)
    (hn : (namespaceImportLocals ctx.imports m).length ≤ 1) :
    (defaultImportLocals ((resolveDefaultOrNamespaceIdentifier me ms ctx).2).imports m).length ≤ 1 ∧
    (namespaceImportLocals ((resolveDefaultOrNamespaceIdentifier me ms ctx).2).imports m).length ≤ 1 := by
  unfold resolveDefaultOrNamespaceIdentifier
  cases hdef : me.hasDefaultExport with
  | true =>
    cases hld : hasLocalForDefaultImportFromModule ctx ms with
    | true => simp only [hdef, hld, Bool.and_self, if_true]; exact ⟨hd, hn⟩
    | false =>
      have hnil := defaultImportLocals_eq_nil_of_not_hasLocal ctx ms hld
      by_cases hms : ms = m
      · subst hms
        simp [hdef, hld, defaultImportLocals, namespaceImportLocals, hnil, hn]
      · simp [hdef, hld, defaultImportLocals, namespaceImportLocals, hms, hd, hn]
  | false =>
    cases hln : hasLocalForNamespaceImportFromModule ctx ms with
    | true => simp only [hdef, hln, Bool.false_and, Bool.not_false, Bool.true_and, if_false, if_true]; exact ⟨hd, hn⟩
    | false =>
      have hnil := namespaceImportLocals_eq_nil_of_not_hasLocal ctx ms hln
      by_cases hms : ms = m
      · subst hms
        simp [hdef, hln, defaultImportLocals, namespaceImportLocals, hnil, hd]
      · simp [hdef, hln, defaultImportLocals, namespaceImportLocals, hms, hd, hn]

/-- The no-named-exports branch preserves the same bound. -/
theorem whenNoNamed_locals_le (ms : String) (b : Bool) (ctx : VisitorContext) (m : String)
    (hd : (defaultImportLocals ctx.imports m).length ≤ 1)
    (hn : (namespaceImportLocals ctx.imports m).length ≤ 1) :
    (defaultImportLocals ((whenNoNamedExports ms b ctx).2).imports m).length ≤ 1 ∧
    (namespaceImportLocals ((whenNoNamedExports ms b ctx).2).imports m).length ≤ 1 := by
  unfold whenNoNamedExports
  cases b with
  | true =>
    cases hb : isModuleSpecifierImportedWithoutLocals ctx ms with
    | false => simp [hb, defaultImportLocals, namespaceImportLocals, hd, hn]
    | true => simp [hb]; exact ⟨hd, hn⟩
  | false =>
    cases hg : getLocalForDefaultImportFromModule ctx ms with
    | some l => simp [hg]; exact ⟨hd, hn⟩
    | none =>
      have hld : hasLocalForDefaultImportFromModule ctx ms = false := by
        simp [hasLocalForDefaultImportFromModule, hg]
      have hnil := defaultImportLocals_eq_nil_of_not_hasLocal ctx ms hld
      by_cases hms : ms = m
      · subst hms
        simp [hg, defaultImportLocals, namespaceImportLocals, hnil, hn]
      · simp [hg, defaultImportLocals, namespaceImportLocals, hms, hd, hn]

/-- The member-access branch preserves the same bound: it only adds named
named imports or delegates to whole-module resolution. -/
theorem memberAccess_locals_le (me : ModuleExports) (ms rv : String) (b : Bool)
    (ctx : VisitorContext) (m : String)
    (hd : (defaultImportLocals ctx.imports m).length ≤ 1)
    (hn : (namespaceImportLocals ctx.imports m).length ≤ 1) :
    (defaultImportLocals ((memberAccessBranch me ms rv b ctx).2).imports m).length ≤ 1 ∧
    (namespaceImportLocals ((memberAccessBranch me ms rv b ctx).2).imports m).length ≤ 1 := by
  unfold memberAccessBranch
  cases hc : me.namedExports.contains rv with
  | false => simpa [hc] using resolve_locals_le me ms ctx m hd hn
  | true =>
    cases hg : getLocalForNamedImportPropertyNameFromModule ctx rv ms with
    | some l => simp [hc, hg]; exact ⟨hd, hn⟩
    | none =>
      simp only [hc, hg, Bool.not_true, Bool.false_eq_true, if_false]
      split
      · simp; exact ⟨hd, hn⟩
      · split
        · simp [defaultImportLocals, namespaceImportLocals, hd, hn]
        · simp [defaultImportLocals, namespaceImportLocals, hd, hn]

/-- The destructuring loop body never touches the import ledger. -/
theorem visitBindingElement_imports (me : ModuleExports) (ms : String)
    (acc : List ImportSpecifierE × List ImportSpecifierE × VisitorContext) (e : BindingElementE) :
    ((visitBindingElement me ms acc e).2.2).imports = acc.2.2.imports := by
  obtain ⟨pn, nm⟩ := e
  rcases pn with _ | a
  · rcases nm with t | _
    · unfold visitBindingElement
      dsimp only
      split
      · split
        · rfl
        · split <;> rfl
      · rfl
    · rfl
  · rcases a with t | _
    · unfold visitBindingElement
      dsimp only
      split <;> rfl
    · rfl

/-- The whole destructuring loop never touches the import ledger. -/
theorem foldl_visitBindingElement_imports (me : ModuleExports) (ms : String) :
    ∀ (elements : List BindingElementE)
      (acc : List ImportSpecifierE × List ImportSpecifierE × VisitorContext),
      ((elements.foldl (visitBindingElement me ms) acc).2.2).imports = acc.2.2.imports := by
  intro elements
  induction elements with
  | nil => intro acc; rfl
  | cons e rest ih =>
    intro acc
    rw [List.foldl_cons, ih, visitBindingElement_imports]

/-- The destructured-binding branch preserves the bound on default and
namespace locals. -/
theorem destructured_locals_le (me : ModuleExports) (ms : String)
    (elements : List BindingElementE) (ctx : VisitorContext) (m : String)
    (hd : (defaultImportLocals ctx.imports m).length ≤ 1)
    (hn : (namespaceImportLocals ctx.imports m).length ≤ 1) :
    (defaultImportLocals ((destructuredBranch me ms elements ctx).2).imports m).length ≤ 1 ∧
    (namespaceImportLocals ((destructuredBranch me ms elements ctx).2).imports m).length ≤ 1 := by
  unfold destructuredBranch
  have himp := foldl_visitBindingElement_imports me ms elements ([], [], ctx)
  dsimp only
  split
  · have hd' : (defaultImportLocals
        ((elements.foldl (visitBindingElement me ms) ([], [], ctx)).2.2).imports m).length ≤ 1 := by
      rw [himp]; exact hd
    have hn' : (namespaceImportLocals
        ((elements.foldl (visitBindingElement me ms) ([], [], ctx)).2.2).imports m).length ≤ 1 := by
      rw [himp]; exact hn
    exact resolve_locals_le me ms _ m hd' hn'
  · split
    · simp [himp, defaultImportLocals, namespaceImportLocals, hd, hn]
    · constructor
      · rw [himp]; exact hd
      · rw [himp]; exact hn

/-- One visit preserves "at most one default and one namespace import entry
per module specifier": every branch that adds a whole-module binding first
checks the registry for a recorded one. -/
theorem visit_locals_le (info : CallSiteInfo) (ctx : VisitorContext) (m : String)
    (hd : (defaultImportLocals ctx.imports m).length ≤ 1)
    (hn : (namespaceImportLocals ctx.imports m).length ≤ 1) :
    (defaultImportLocals ((visitCallExpression info ctx).2).imports m).length ≤ 1 ∧
    (namespaceImportLocals ((visitCallExpression info ctx).2).imports m).length ≤ 1 := by
  unfold visitCallExpression
  split
  · exact ⟨hd, hn⟩
  split
  · exact ⟨hd, hn⟩
  split
  · exact ⟨hd, hn⟩
  split
  · exact whenNoNamed_locals_le _ _ _ _ hd hn
  split
  · exact whenNoNamed_locals_le _ _ _ _ hd hn
  split
  · exact memberAccess_locals_le _ _ _ _ _ _ hd hn
  split
  · exact resolve_locals_le _ _ _ _ hd hn
  · exact destructured_locals_le _ _ _ _ _ hd hn
  · split
    · exact resolve_locals_le _ _ _ _ hd hn
    · split
      · exact ⟨hd, hn⟩
      · exact ⟨hd, hn⟩

/-- A whole pass preserves the bound. -/
theorem runPass_locals_le (m : String) (infos : List CallSiteInfo) :
    ∀ ctx : VisitorContext,
      (defaultImportLocals ctx.imports m).length ≤ 1 →
      (namespaceImportLocals ctx.imports m).length ≤ 1 →
      (defaultImportLocals (runPass infos ctx).imports m).length ≤ 1 ∧
      (namespaceImportLocals (runPass infos ctx).imports m).length ≤ 1 := by
  induction infos with
  | nil => intro ctx hd hn; exact ⟨hd, hn⟩
  | cons i rest ih =>
    intro ctx hd hn
    have h := visit_locals_le i ctx m hd hn
    exact ih _ h.1 h.2

/-! ### Invariant machinery: named-import locals -/

/-- Whole-module resolution never records a named-import local. -/
theorem resolve_namedLocals (me : ModuleExports) (ms : String) (ctx : VisitorContext)
    (p m : String) :
    namedLocalsForPropertyName ((resolveDefaultOrNamespaceIdentifier me ms ctx).2).imports p m
      = namedLocalsForPropertyName ctx.imports p m := by
  unfold resolveDefaultOrNamespaceIdentifier
  split
  · rfl
  split
  · rfl
  · cases hdef : me.hasDefaultExport <;> simp [hdef, namedLocalsForPropertyName]

/-- The no-named-exports branch never records a named-import local. -/
theorem whenNoNamed_namedLocals (ms : String) (b : Bool) (ctx : VisitorContext) (p m : String) :
    namedLocalsForPropertyName ((whenNoNamedExports ms b ctx).2).imports p m
      = namedLocalsForPropertyName ctx.imports p m := by
  unfold whenNoNamedExports
  split
  · split
    · simp [namedLocalsForPropertyName]
    · rfl
  · split
    · rfl
    · simp [namedLocalsForPropertyName]

/-- The member-access branch adds no named-import entry for an exported name
that already has a recorded local. -/
theorem memberAccess_namedLocals (me : ModuleExports) (ms rv : String) (b : Bool)
    (ctx : VisitorContext) (p m : String)
    (h : ms = m → getLocalForNamedImportPropertyNameFromModule ctx p m ≠ none) :
    namedLocalsForPropertyName ((memberAccessBranch me ms rv b ctx).2).imports p m
      = namedLocalsForPropertyName ctx.imports p m := by
  unfold memberAccessBranch
  split
  · exact resolve_namedLocals me ms ctx p m
  · split
    · simp
    · rename_i hg
      split
      · simp
      · have hrv : ms = m → rv ≠ p := by
          intro hms hrvp
          subst hms; subst hrvp
          exact h rfl hg
        by_cases hms : ms = m
        · subst hms
          have hne := hrv rfl
          split <;> simp [namedLocalsForPropertyName, hne]
        · split <;> simp [namedLocalsForPropertyName, hms]

/-- If the registry already holds a local for the exported name `p`, and the
element is not the renaming form for `p`, the loop body adds no specifier
whose exported name is `p`. -/
theorem visitBindingElement_no_p (me : ModuleExports) (m p : String)
    (imp skip : List ImportSpecifierE) (ctx : VisitorContext) (e : BindingElementE)
    (hp : getLocalForNamedImportPropertyNameFromModule ctx p m ≠ none)
    (he : e.propertyName ≠ some (AstName.ident p))
    (himp : ∀ s ∈ imp, (s.propertyName.getD s.name) ≠ p) :
    ∀ s ∈ (visitBindingElement me m (imp, skip, ctx) e).1, (s.propertyName.getD s.name) ≠ p := by
  obtain ⟨pn, nm⟩ := e
  rcases pn with _ | a
  · rcases nm with t | _
    · unfold visitBindingElement
      dsimp only
      split
      · split
        · simpa using himp
        · rename_i hg
          have ht : t ≠ p := by
            intro hterm
            subst hterm
            exact hp hg
          split
          · intro s hs
            rcases List.mem_append.mp hs with hs | hs
            · exact himp s hs
            · simp only [List.mem_singleton] at hs
              subst hs
              simpa using ht
          · intro s hs
            rcases List.mem_append.mp hs with hs | hs
            · exact himp s hs
            · simp only [List.mem_singleton] at hs
              subst hs
              simpa using ht
      · simpa using himp
    · simpa using himp
  · rcases a with t | _
    · have ht : t ≠ p := by
        intro hterm
        exact he (by rw [hterm])
      unfold visitBindingElement
      dsimp only
      split
      · intro s hs
        rcases List.mem_append.mp hs with hs | hs
        · exact himp s hs
        · simp only [List.mem_singleton] at hs
          subst hs
          simpa using ht
      · intro s hs
        rcases List.mem_append.mp hs with hs | hs
        · exact himp s hs
        · simp only [List.mem_singleton] at hs
          subst hs
          simpa using ht
    · simpa using himp

/-- Whole-loop version of `visitBindingElement_no_p`. -/
theorem foldl_visitBindingElement_no_p (me : ModuleExports) (m p : String) :
    ∀ (elements : List BindingElementE) (imp skip : List ImportSpecifierE) (ctx : VisitorContext),
      getLocalForNamedImportPropertyNameFromModule ctx p m ≠ none →
      (∀ e ∈ elements, e.propertyName ≠ some (AstName.ident p)) →
      (∀ s ∈ imp, (s.propertyName.getD s.name) ≠ p) →
      ∀ s ∈ (elements.foldl (visitBindingElement me m) (imp, skip, ctx)).1,
        (s.propertyName.getD s.name) ≠ p := by
  intro elements
  induction elements with
  | nil => intro imp skip ctx hp he himp; simpa using himp
  | cons e rest ih =>
    intro imp skip ctx hp he himp
    rw [List.foldl_cons]
    have hacc := visitBindingElement_no_p me m p imp skip ctx e hp (he e (by simp)) himp
    have himports := visitBindingElement_imports me m (imp, skip, ctx) e
    have hp' : getLocalForNamedImportPropertyNameFromModule
        ((visitBindingElement me m (imp, skip, ctx) e).2.2) p m ≠ none := by
      unfold getLocalForNamedImportPropertyNameFromModule at hp ⊢
      rw [himports]; exact hp
    exact ih (visitBindingElement me m (imp, skip, ctx) e).1
      (visitBindingElement me m (imp, skip, ctx) e).2.1
      (visitBindingElement me m (imp, skip, ctx) e).2.2 hp'
      (fun e' he' => he e' (by simp [he'])) hacc

/-- The destructured-binding branch adds no named-import entry for an
exported name that already has a recorded local, provided no element is the
renaming form for it. -/
theorem destructured_namedLocals (me : ModuleExports) (ms : String)
    (elements : List BindingElementE) (ctx : VisitorContext) (p m : String)
    (h : ms = m →
      getLocalForNamedImportPropertyNameFromModule ctx p m ≠ none ∧
      ∀ e ∈ elements, e.propertyName ≠ some (AstName.ident p)) :
    namedLocalsForPropertyName ((destructuredBranch me ms elements ctx).2).imports p m
      = namedLocalsForPropertyName ctx.imports p m := by
  unfold destructuredBranch
  have himp := foldl_visitBindingElement_imports me ms elements ([], [], ctx)
  dsimp only
  split
  · rw [resolve_namedLocals, himp]
  · split
    · by_cases hms : ms = m
      · subst hms
        obtain ⟨hp, he⟩ := h rfl
        have hno := foldl_visitBindingElement_no_p me ms p elements [] [] ctx hp he (by simp)
        simp only [namedLocalsForPropertyName, himp, addImport_imports,
          namedLocalsForPropertyName_append]
        simp [namedLocalsForPropertyName]
        exact hno
      · simp [namedLocalsForPropertyName, hms, himp]
    · rw [himp]

/-! ### Machinery for the destructuring element count -/

/-- An element with neither a property name nor an identifier binding name is
skipped by the loop body. -/
theorem visitBindingElement_of_bad (me : ModuleExports) (ms : String)
    (acc : List ImportSpecifierE × List ImportSpecifierE × VisitorContext)
    (e : BindingElementE) (hpn : e.propertyName = none) (hnm : e.name = AstName.nonIdent) :
    visitBindingElement me ms acc e = acc := by
  unfold visitBindingElement
  rw [hpn, hnm]

/-- Each element contributes at most one specifier, skipped or not. -/
theorem visitBindingElement_len_le (me : ModuleExports) (ms : String)
    (acc : List ImportSpecifierE × List ImportSpecifierE × VisitorContext)
    (e : BindingElementE) :
    (visitBindingElement me ms acc e).1.length + (visitBindingElement me ms acc e).2.1.length
      ≤ acc.1.length + acc.2.1.length + 1 := by
  obtain ⟨pn, nm⟩ := e
  rcases pn with _ | a
  · rcases nm with t | _
    · unfold visitBindingElement
      dsimp only
      split
      · split
        · simp only [List.length_append, List.length_singleton]
          omega
        · split <;> (simp only [List.length_append, List.length_singleton]; omega)
      · omega
    · rw [visitBindingElement_of_bad me ms acc ⟨none, AstName.nonIdent⟩ rfl rfl]
      omega
  · rcases a with t | _
    · unfold visitBindingElement
      dsimp only
      split <;> (simp only [List.length_append, List.length_singleton]; omega)
    · have h : visitBindingElement me ms acc ⟨some AstName.nonIdent, nm⟩ = acc := rfl
      rw [h]
      omega

/-- The loop contributes at most one specifier per element. -/
theorem foldl_visitBindingElement_len_le (me : ModuleExports) (ms : String) :
    ∀ (elements : List BindingElementE)
      (acc : List ImportSpecifierE × List ImportSpecifierE × VisitorContext),
      (elements.foldl (visitBindingElement me ms) acc).1.length
        + (elements.foldl (visitBindingElement me ms) acc).2.1.length
      ≤ acc.1.length + acc.2.1.length + elements.length := by
  intro elements
  induction elements with
  | nil => intro acc; simp
  | cons e rest ih =>
    intro acc
    rw [List.foldl_cons]
    have h1 := visitBindingElement_len_le me ms acc e
    have h2 := ih (visitBindingElement me ms acc e)
    simp only [List.length_cons]
    omega

/-- When some element has no property name and a non-identifier binding name,
the loop contributes strictly fewer specifiers than there are elements. -/
theorem foldl_visitBindingElement_len_lt (me : ModuleExports) (ms : String) :
    ∀ (elements : List BindingElementE)
      (acc : List ImportSpecifierE × List ImportSpecifierE × VisitorContext),
      (∃ e ∈ elements, e.propertyName = none ∧ e.name = AstName.nonIdent) →
      (elements.foldl (visitBindingElement me ms) acc).1.length
        + (elements.foldl (visitBindingElement me ms) acc).2.1.length
      < acc.1.length + acc.2.1.length + elements.length := by
  intro elements
  induction elements with
  | nil =>
    rintro acc ⟨e, he, _⟩
    exact absurd he (List.not_mem_nil e)
  | cons e rest ih =>
    rintro acc ⟨e', he', hbad⟩
    rw [List.foldl_cons]
    rcases List.mem_cons.mp he' with heq | hmem
    · subst heq
      rw [visitBindingElement_of_bad me ms acc e' hbad.1 hbad.2]
      have := foldl_visitBindingElement_len_le me ms rest acc
      simp only [List.length_cons]
      omega
    · have h1 := visitBindingElement_len_le me ms acc e
      have h2 := ih (visitBindingElement me ms acc e) ⟨e', hmem, hbad⟩
      simp only [List.length_cons]
      omega

/-! ### Claim theorems -/

/-- C4 counterexample: a matched require call whose module specifier could not
be statically determined is removed from the source file (the visitor returns
`undefined`), not left entirely unmodified as the claim states. -/
theorem claim4_counterexample :
    visitCallExpression ⟨⟨true, none⟩, none, false, none, none, false⟩ ⟨false, false, [], []⟩
      = (VisitResultE.removed, ⟨false, false, [], []⟩) ∧
    VisitResultE.removed ≠ VisitResultE.unchanged :=
  ⟨by decide, by decide⟩

/-- C4 (amended): for every require call whose module-specifier argument could
not be statically determined, the call node is removed and no import is added;
no failure is surfaced (the visitor context is returned untouched). -/
theorem claim4_amended_thm (info : CallSiteInfo) (ctx : VisitorContext)
    (h0 : ctx.onlyExports = false) (h1 : info.requireData.matched = true)
    (h2 : info.requireData.moduleSpecifier = none) :
    visitCallExpression info ctx = (VisitResultE.removed, ctx) := by
  simp [visitCallExpression, h0, h1, h2]

/-- C4 witness: the amended theorem applied at a concrete call site. -/
theorem claim4_amended_witness :
    (⟨false, false, [], []⟩ : VisitorContext).onlyExports = false ∧
    (⟨⟨true, none⟩, none, false, none, none, false⟩ : CallSiteInfo).requireData.matched = true ∧
    (⟨⟨true, none⟩, none, false, none, none, false⟩ : CallSiteInfo).requireData.moduleSpecifier = none ∧
    visitCallExpression ⟨⟨true, none⟩, none, false, none, none, false⟩ ⟨false, false, [], []⟩
      = (VisitResultE.removed, ⟨false, false, [], []⟩) :=
  ⟨rfl, rfl, rfl, claim4_amended_thm _ _ rfl rfl rfl⟩

/-- C7 counterexample: for the call site `VariableBinding{Simple("x")}` with
specifier `"m"` and exports `{hasDefaultExport: true, namedExports: {}}` and
`"x"` free, the produced local is derived from the module specifier — the
plan is `[Default{local:"m"}]` and the replacement identifier is `"m"`, not
the bound variable name `"x"` expected by the claim. -/
theorem claim7_counterexample :
    visitCallExpression
        ⟨⟨true, some ("m")⟩, some ⟨true, []⟩, false, none,
          some (BindingNameKind.ident ("x")), false⟩
        ⟨false, false, [], []⟩
      = (VisitResultE.identifier ("m"),
         ⟨false, false, [⟨ImportClauseKind.defaultClause ("m"), ("m")⟩], [("m")]⟩) ∧
    VisitResultE.identifier ("m") ≠ VisitResultE.identifier ("x") :=
  ⟨by decide, by decide⟩

/-- C7 (amended): for that call site the plan is exactly one default-binding
binding import whose local is the free identifier derived from the module specifier
(`generateNameFromModuleSpecifier "m"`), and the replacement is an identifier
for that same local. -/
theorem claim7_amended_thm :
    visitCallExpression
        ⟨⟨true, some ("m")⟩, some ⟨true, []⟩, false, none,
          some (BindingNameKind.ident ("x")), false⟩
        ⟨false, false, [], []⟩
      = (VisitResultE.identifier (generateNameFromModuleSpecifier ("m")),
         ⟨false, false,
          [⟨ImportClauseKind.defaultClause (generateNameFromModuleSpecifier ("m")), ("m")⟩],
          [generateNameFromModuleSpecifier ("m")]⟩) := by
  decide

/-- C2 counterexample: resolving a whole-module binding for a module whose
exports descriptor is known with `hasDefaultExport = false` (and no named
exports) adds a default-binding import entry, contradicting the claim that a
namespace entry is emitted in every such branch. -/
theorem claim2_counterexample :
    (⟨false, []⟩ : ModuleExports).hasDefaultExport = false ∧
    (visitCallExpression ⟨⟨true, some ("m")⟩, some ⟨false, []⟩, false, none, none, false⟩
        ⟨false, false, [], []⟩).2.imports
      = [⟨ImportClauseKind.defaultClause ("m"), ("m")⟩] :=
  ⟨rfl, by decide⟩

/-- C2 (amended): in the shared whole-module resolution chain used by the
member-access fallback, simple variable-binding, destructured fallback and
nested-call branches, a known non-default module never yields a default
default import: an already-recorded namespace local is reused when present, and
otherwise a namespace import entry is added.  (The separate branch for
modules without named exports, `whenNoNamedExports`, instead always adds a
default clause.) -/
theorem claim2_amended_thm (me : ModuleExports) (m : String) (ctx : VisitorContext)
    (h : me.hasDefaultExport = false) :
    (∀ l, getLocalForNamespaceImportFromModule ctx m = some l →
      resolveDefaultOrNamespaceIdentifier me m ctx = (l, ctx)) ∧
    (getLocalForNamespaceImportFromModule ctx m = none →
      ((resolveDefaultOrNamespaceIdentifier me m ctx).2).imports
        = ctx.imports ++
          [⟨ImportClauseKind.namespaceClause ((resolveDefaultOrNamespaceIdentifier me m ctx).1), m⟩]) := by
  constructor
  · intro l hl
    simp [resolveDefaultOrNamespaceIdentifier, h, hasLocalForNamespaceImportFromModule, hl]
  · intro hn
    simp [resolveDefaultOrNamespaceIdentifier, h, hasLocalForNamespaceImportFromModule, hn]

/-- C2 witness: the amended theorem applied with a concrete non-default
module and empty registry. -/
theorem claim2_amended_witness :
    (⟨false, [("a")]⟩ : ModuleExports).hasDefaultExport = false ∧
    ((∀ l, getLocalForNamespaceImportFromModule ⟨false, false, [], []⟩ ("m") = some l →
        resolveDefaultOrNamespaceIdentifier ⟨false, [("a")]⟩ ("m") ⟨false, false, [], []⟩
          = (l, ⟨false, false, [], []⟩)) ∧
     (getLocalForNamespaceImportFromModule ⟨false, false, [], []⟩ ("m") = none →
        ((resolveDefaultOrNamespaceIdentifier ⟨false, [("a")]⟩ ("m") ⟨false, false, [], []⟩).2).imports
          = ([] : List ImportDeclarationE) ++
            [⟨ImportClauseKind.namespaceClause
                ((resolveDefaultOrNamespaceIdentifier ⟨false, [("a")]⟩ ("m") ⟨false, false, [], []⟩).1),
              ("m")⟩])) :=
  ⟨rfl, claim2_amended_thm _ _ _ rfl⟩

/-- C5: two bare-statement call sites requiring the same module specifier,
processed in sequence, yield exactly one bare import entry across both: the
first adds the bare import and is removed; the second adds nothing and is
also removed. -/
theorem claim5_bare_dedup (info1 info2 : CallSiteInfo) (ctx : VisitorContext) (m : String)
    (h0 : ctx.onlyExports = false)
    (h1 : info1.requireData = ⟨true, some m⟩)
    (h2 : info2.requireData = ⟨true, some m⟩)
    (h3 : info1.hasExpressionStatementParent = true)
    (h4 : info2.hasExpressionStatementParent = true)
    (h5 : info1.moduleExports = none ∨
      ∃ me, info1.moduleExports = some me ∧
        (me.namedExports.isEmpty = true ∨ me.hasDefaultExport = false))
    (h6 : info2.moduleExports = none ∨
      ∃ me, info2.moduleExports = some me ∧
        (me.namedExports.isEmpty = true ∨ me.hasDefaultExport = false))
    (h7 : isModuleSpecifierImportedWithoutLocals ctx m = false) :
    visitCallExpression info1 ctx = (VisitResultE.removed, addImport ctx ⟨.bare, m⟩) ∧
    visitCallExpression info2 (addImport ctx ⟨.bare, m⟩)
      = (VisitResultE.removed, addImport ctx ⟨.bare, m⟩) := by
  have hbare : isModuleSpecifierImportedWithoutLocals (addImport ctx ⟨.bare, m⟩) m = true := by
    simp [isModuleSpecifierImportedWithoutLocals, addImport, hasBareImport]
  constructor
  · rcases h5 with h | ⟨me, hme, hcond⟩
    · simp [visitCallExpression, h0, h1, h3, h, whenNoNamedExports, h7]
    · rcases hcond with hc | hc <;>
        simp [visitCallExpression, h0, h1, h3, hme, hc, whenNoNamedExports, h7]
  · rcases h6 with h | ⟨me, hme, hcond⟩
    · simp [visitCallExpression, h0, h2, h4, h, whenNoNamedExports, hbare]
    · rcases hcond with hc | hc <;>
        simp [visitCallExpression, h0, h2, h4, hme, hc, whenNoNamedExports, hbare]

/-- C5 witness: two concrete bare-statement call sites for `"m"` with unknown
exports, from an empty registry. -/
theorem claim5_witness :
    (⟨false, false, [], []⟩ : VisitorContext).onlyExports = false ∧
    isModuleSpecifierImportedWithoutLocals ⟨false, false, [], []⟩ ("m") = false ∧
    (visitCallExpression (⟨⟨true, some ("m")⟩, none, true, none, none, false⟩ : CallSiteInfo)
        ⟨false, false, [], []⟩
      = (VisitResultE.removed, addImport ⟨false, false, [], []⟩ ⟨.bare, ("m")⟩) ∧
     visitCallExpression (⟨⟨true, some ("m")⟩, none, true, none, none, false⟩ : CallSiteInfo)
        (addImport ⟨false, false, [], []⟩ ⟨.bare, ("m")⟩)
      = (VisitResultE.removed, addImport ⟨false, false, [], []⟩ ⟨.bare, ("m")⟩)) :=
  ⟨rfl, rfl,
    claim5_bare_dedup _ _ _ _ rfl rfl rfl rfl rfl (Or.inl rfl) (Or.inl rfl) rfl⟩

/-- C10: a destructured element carrying an explicit identifier property name
(the renaming form `{prop: alias}`) always creates a named import specifier
for that property name — non-aliased when the name is free, aliased to a
fresh identifier otherwise — irrespective of the module's named exports and
of any named local already recorded in the registry (the result does not
consult either); a plain element, in contrast, consults the registry and
collects an existing local into the skipped specifiers without creating a new
one. -/
theorem claim10_renamed_element (me : ModuleExports) (m propText : String) (nm : AstName)
    (imp skip : List ImportSpecifierE) (ctx : VisitorContext) :
    (visitBindingElement me m (imp, skip, ctx) ⟨some (AstName.ident propText), nm⟩ =
      if isIdentifierFree ctx propText then (imp ++ [⟨none, propText⟩], skip, ctx)
      else
        (imp ++ [⟨some propText, (getFreeIdentifier ctx propText).1⟩], skip,
          (getFreeIdentifier ctx propText).2)) ∧
    (∀ l, getLocalForNamedImportPropertyNameFromModule ctx propText m = some l →
      me.namedExports.contains propText = true →
      visitBindingElement me m (imp, skip, ctx) ⟨none, AstName.ident propText⟩ =
        (imp, skip ++ [if l == propText then ⟨none, l⟩ else ⟨some propText, l⟩], ctx)) := by
  constructor
  · rfl
  · intro l hl hc
    have hc' : propText ∈ me.namedExports := by simpa using hc
    simp [visitBindingElement, hc', hl]

/-- C10 witness: the theorem applied with a registry that already holds a
named local `"foo"` for module `"m"` and with `"foo"` bound in the file. -/
theorem claim10_witness :
    (visitBindingElement ⟨false, [("foo")]⟩ ("m")
        ([], [], ⟨false, false, [⟨ImportClauseKind.named [⟨none, ("foo")⟩], ("m")⟩], [("foo")]⟩)
        ⟨some (AstName.ident ("foo")), AstName.nonIdent⟩ =
      if isIdentifierFree ⟨false, false, [⟨ImportClauseKind.named [⟨none, ("foo")⟩], ("m")⟩], [("foo")]⟩ ("foo") then
        ([] ++ [⟨none, ("foo")⟩], [],
          ⟨false, false, [⟨ImportClauseKind.named [⟨none, ("foo")⟩], ("m")⟩], [("foo")]⟩)
      else
        ([] ++ [⟨some ("foo"),
            (getFreeIdentifier ⟨false, false, [⟨ImportClauseKind.named [⟨none, ("foo")⟩], ("m")⟩], [("foo")]⟩ ("foo")).1⟩],
          [],
          (getFreeIdentifier ⟨false, false, [⟨ImportClauseKind.named [⟨none, ("foo")⟩], ("m")⟩], [("foo")]⟩ ("foo")).2)) ∧
    getLocalForNamedImportPropertyNameFromModule
        ⟨false, false, [⟨ImportClauseKind.named [⟨none, ("foo")⟩], ("m")⟩], [("foo")]⟩ ("foo") ("m")
      = some ("foo") ∧
    (⟨false, [("foo")]⟩ : ModuleExports).namedExports.contains ("foo") = true ∧
    visitBindingElement ⟨false, [("foo")]⟩ ("m")
        ([], [], ⟨false, false, [⟨ImportClauseKind.named [⟨none, ("foo")⟩], ("m")⟩], [("foo")]⟩)
        ⟨none, AstName.ident ("foo")⟩ =
      ([], [] ++ [if ("foo") == ("foo") then ⟨none, ("foo")⟩ else ⟨some ("foo"), ("foo")⟩],
        ⟨false, false, [⟨ImportClauseKind.named [⟨none, ("foo")⟩], ("m")⟩], [("foo")]⟩) :=
  ⟨(claim10_renamed_element ⟨false, [("foo")]⟩ ("m") ("foo") AstName.nonIdent [] []
      ⟨false, false, [⟨ImportClauseKind.named [⟨none, ("foo")⟩], ("m")⟩], [("foo")]⟩).1,
   by decide, by decide,
   (claim10_renamed_element ⟨false, [("foo")]⟩ ("m") ("foo") AstName.nonIdent [] []
      ⟨false, false, [⟨ImportClauseKind.named [⟨none, ("foo")⟩], ("m")⟩], [("foo")]⟩).2
     ("foo") (by decide) (by decide)⟩

/-- C1: evaluation at the failing input.  For
`const { notExported: bar } = require("m")` with exports
`{hasDefaultExport: false, namedExports: {"a"}}`, the exported name
`"notExported"` is not a named export of the module, yet the visitor still
emits the partial named import `import { notExported } from "m"` and an
object-literal replacement instead of falling back to a whole-module import —
contradicting the all-or-nothing rule stated by the claim and by the source's
own comment (lines 272-274). -/
theorem claim1_failing_eval :
    visitCallExpression
        ⟨⟨true, some ("m")⟩, some ⟨false, [("a")]⟩, false, none,
          some (BindingNameKind.objectBindingPattern
            [⟨some (AstName.ident ("notExported")), AstName.ident ("bar")⟩]), false⟩
        ⟨false, false, [], [("bar")]⟩
      = (VisitResultE.objectLiteral [ObjectLiteralPropertyE.shorthandPropertyAssignment ("notExported")],
         ⟨false, false, [⟨ImportClauseKind.named [⟨none, ("notExported")⟩], ("m")⟩], [("bar")]⟩) ∧
    (⟨false, [("a")]⟩ : ModuleExports).namedExports.contains ("notExported") = false :=
  ⟨by decide, by decide⟩

/-- C8 counterexample: a require call whose usage context is `Unresolved` (no
member-access, variable-binding or nested-call ancestor) but whose exports
descriptor is unknown is handled by the no-named-exports branch, not by the
`Unresolved` policy: in debug (strict) mode no failure is signalled, and in
lenient mode the call is replaced by an identifier with an import added, not
returned unchanged. -/
theorem claim8_counterexample :
    (visitCallExpression ⟨⟨true, some ("m")⟩, none, false, none, none, false⟩
        ⟨false, true, [], []⟩).1
      = VisitResultE.identifier ("m") ∧
    VisitResultE.identifier ("m") ≠ VisitResultE.throwTypeError ("Could not handle require() call") ∧
    (visitCallExpression ⟨⟨true, some ("m")⟩, none, false, none, none, false⟩
        ⟨false, false, [], []⟩).1
      ≠ VisitResultE.unchanged ∧
    (visitCallExpression ⟨⟨true, some ("m")⟩, none, false, none, none, false⟩
        ⟨false, false, [], []⟩).2.imports
      ≠ ([] : List ImportDeclarationE) :=
  ⟨by decide, by decide, by decide, by decide⟩

/-- C8 (amended): for a require call whose usage context is `Unresolved` and
whose exports descriptor is known with at least one named export (and which
is not an expression statement of a module without default export), the
debug (strict) mode throws a `TypeError` — aborting the file's pass — while
lenient mode returns the call node unchanged with no import added. -/
theorem claim8_amended_thm (info : CallSiteInfo) (ctx : VisitorContext) (ms : String)
    (me : ModuleExports)
    (h0 : ctx.onlyExports = false)
    (h1 : info.requireData = ⟨true, some ms⟩)
    (h2 : info.moduleExports = some me)
    (h3 : (me.namedExports.isEmpty
      || (info.hasExpressionStatementParent && !me.hasDefaultExport)) = false)
    (h4 : info.elementOrPropertyAccessParent = none)
    (h5 : info.variableDeclarationName = none)
    (h6 : info.hasCallExpressionParent = false) :
    (ctx.debug = true →
      visitCallExpression info ctx
        = (VisitResultE.throwTypeError ("Could not handle require() call"), ctx)) ∧
    (ctx.debug = false → visitCallExpression info ctx = (VisitResultE.unchanged, ctx)) := by
  constructor <;> intro hdbg <;>
    simp [visitCallExpression, h0, h1, h2, h3, h4, h5, h6, hdbg, accessRightValue]

/-- C3: across one file pass over any sequence of call sites, a given module
specifier never accumulates two default-binding import entries nor two
namespace import entries: every branch that adds a whole-module binding
first consults the registry for an existing default or namespace local. -/
theorem claim3_no_duplicate_whole_module_imports (infos : List CallSiteInfo)
    (ctx : VisitorContext) (m : String)
    (hd : (defaultImportLocals ctx.imports m).length ≤ 1)
    (hn : (namespaceImportLocals ctx.imports m).length ≤ 1) :
    (defaultImportLocals (runPass infos ctx).imports m).length ≤ 1 ∧
    (namespaceImportLocals (runPass infos ctx).imports m).length ≤ 1 :=
  runPass_locals_le m infos ctx hd hn

/-- C3 witness: a concrete pass over two nested-call sites for the same
non-default module, starting from an empty registry. -/
theorem claim3_witness :
    (defaultImportLocals (⟨false, false, [], []⟩ : VisitorContext).imports ("m")).length ≤ 1 ∧
    (namespaceImportLocals (⟨false, false, [], []⟩ : VisitorContext).imports ("m")).length ≤ 1 ∧
    ((defaultImportLocals
        (runPass
          [⟨⟨true, some ("m")⟩, some ⟨false, [("a")]⟩, false, none, none, true⟩,
           ⟨⟨true, some ("m")⟩, some ⟨false, [("a")]⟩, false, none, none, true⟩]
          ⟨false, false, [], []⟩).imports ("m")).length ≤ 1 ∧
     (namespaceImportLocals
        (runPass
          [⟨⟨true, some ("m")⟩, some ⟨false, [("a")]⟩, false, none, none, true⟩,
           ⟨⟨true, some ("m")⟩, some ⟨false, [("a")]⟩, false, none, none, true⟩]
          ⟨false, false, [], []⟩).imports ("m")).length ≤ 1) :=
  ⟨by decide, by decide,
    claim3_no_duplicate_whole_module_imports _ _ _ (by decide) (by decide)⟩

/-- C6 counterexample: the registry already holds the named local `"foo"` for
exported name `"foo"` of module `"m"`, yet visiting
`const { foo: bar } = require("m")` adds a second named-import entry for that
same exported name (aliased to a fresh identifier), because the renamed
destructuring element never consults the registry. -/
theorem claim6_counterexample :
    hasLocalForNamedImportPropertyNameFromModule
        ⟨false, false, [⟨ImportClauseKind.named [⟨none, ("foo")⟩], ("m")⟩], [("foo")]⟩
        ("foo") ("m") = true ∧
    (visitCallExpression
        ⟨⟨true, some ("m")⟩, some ⟨false, [("foo")]⟩, false, none,
          some (BindingNameKind.objectBindingPattern
            [⟨some (AstName.ident ("foo")), AstName.ident ("bar")⟩]), false⟩
        ⟨false, false, [⟨ImportClauseKind.named [⟨none, ("foo")⟩], ("m")⟩], [("foo")]⟩).2.imports
      = [⟨ImportClauseKind.named [⟨none, ("foo")⟩], ("m")⟩,
         ⟨ImportClauseKind.named [⟨some ("foo"), ("foo$")⟩], ("m")⟩] :=
  ⟨by decide, by decide⟩

/-- C6 (amended): when the registry already has a local for an exported name
and specifier, no call site adds another named-import entry for that exported
name — provided the call site's destructuring pattern (if any) contains no
renamed element for that name, since renamed elements do not consult the
registry. -/
theorem claim6_amended_thm (info : CallSiteInfo) (ctx : VisitorContext) (p m : String)
    (hlocal : hasLocalForNamedImportPropertyNameFromModule ctx p m = true)
    (hren : ∀ elements, info.variableDeclarationName
        = some (BindingNameKind.objectBindingPattern elements) →
      ∀ e ∈ elements, e.propertyName ≠ some (AstName.ident p)) :
    namedLocalsForPropertyName ((visitCallExpression info ctx).2).imports p m
      = namedLocalsForPropertyName ctx.imports p m := by
  have hp : getLocalForNamedImportPropertyNameFromModule ctx p m ≠ none := by
    unfold hasLocalForNamedImportPropertyNameFromModule at hlocal
    intro hcon
    rw [hcon] at hlocal
    simp at hlocal
  unfold visitCallExpression
  split
  · rfl
  split
  · rfl
  split
  · rfl
  split
  · exact whenNoNamed_namedLocals _ _ _ _ _
  split
  · exact whenNoNamed_namedLocals _ _ _ _ _
  split
  · exact memberAccess_namedLocals _ _ _ _ _ _ _ (fun _ => hp)
  split
  · exact resolve_namedLocals _ _ _ _ _
  · rename_i elements heq
    exact destructured_namedLocals _ _ _ _ _ _ (fun _ => ⟨hp, hren elements heq⟩)
  · split
    · exact resolve_namedLocals _ _ _ _ _
    · split
      · rfl
      · rfl

/-- C6 witness: the amended theorem applied to a member-access call site
`require("m").foo` with the named local `"foo"` already recorded — the reuse
path adds no entry. -/
theorem claim6_amended_witness :
    hasLocalForNamedImportPropertyNameFromModule
        ⟨false, false, [⟨ImportClauseKind.named [⟨none, ("foo")⟩], ("m")⟩], [("foo")]⟩
        ("foo") ("m") = true ∧
    namedLocalsForPropertyName
        ((visitCallExpression
          ⟨⟨true, some ("m")⟩, some ⟨false, [("foo")]⟩, false,
            some (AccessParent.propertyAccess ("foo")), none, false⟩
          ⟨false, false, [⟨ImportClauseKind.named [⟨none, ("foo")⟩], ("m")⟩], [("foo")]⟩).2).imports
        ("foo") ("m")
      = namedLocalsForPropertyName
          (⟨false, false, [⟨ImportClauseKind.named [⟨none, ("foo")⟩], ("m")⟩],
            [("foo")]⟩ : VisitorContext).imports ("foo") ("m") :=
  ⟨by decide,
    claim6_amended_thm
      ⟨⟨true, some ("m")⟩, some ⟨false, [("foo")]⟩, false,
        some (AccessParent.propertyAccess ("foo")), none, false⟩
      ⟨false, false, [⟨ImportClauseKind.named [⟨none, ("foo")⟩], ("m")⟩], [("foo")]⟩
      ("foo") ("m") (by decide) (fun elements h => nomatch h)⟩

/-- C9 counterexample: the element `{a: <nested pattern>}` has a
non-identifier bound name, yet it does contribute an import specifier (for
its identifier property name `"a"`), so the binding does not fall back to a
whole-module import: a named import of `"a"` is emitted and the call is
replaced by an object literal, not an identifier. -/
theorem claim9_counterexample :
    visitCallExpression
        ⟨⟨true, some ("m")⟩, some ⟨false, [("a")]⟩, false, none,
          some (BindingNameKind.objectBindingPattern
            [⟨some (AstName.ident ("a")), AstName.nonIdent⟩]), false⟩
        ⟨false, false, [], []⟩
      = (VisitResultE.objectLiteral [ObjectLiteralPropertyE.shorthandPropertyAssignment ("a")],
         ⟨false, false, [⟨ImportClauseKind.named [⟨none, ("a")⟩], ("m")⟩], []⟩) ∧
    (∀ name, VisitResultE.objectLiteral [ObjectLiteralPropertyE.shorthandPropertyAssignment ("a")]
      ≠ VisitResultE.identifier name) :=
  ⟨by decide, fun _ => by simp⟩

/-- C9 (amended): an element with no explicit property name whose bound name
is not a plain identifier contributes no import specifier, so the
all-or-nothing count check fails and the entire binding falls back to a
single whole-module import (the replacement is an identifier and no named
named import is produced); an element with an identifier property name — such as
`{a: {b}}` — instead contributes a specifier for the property name. -/
theorem claim9_amended_thm (info : CallSiteInfo) (ctx : VisitorContext) (ms : String)
    (me : ModuleExports) (elements : List BindingElementE)
    (h0 : ctx.onlyExports = false)
    (h1 : info.requireData = ⟨true, some ms⟩)
    (h2 : info.moduleExports = some me)
    (h3 : (me.namedExports.isEmpty
      || (info.hasExpressionStatementParent && !me.hasDefaultExport)) = false)
    (h4 : accessRightValue info.elementOrPropertyAccessParent = none)
    (h5 : info.variableDeclarationName = some (BindingNameKind.objectBindingPattern elements))
    (h6 : ∃ e ∈ elements, e.propertyName = none ∧ e.name = AstName.nonIdent) :
    visitCallExpression info ctx
      = (VisitResultE.identifier
          (resolveDefaultOrNamespaceIdentifier me ms
            ((elements.foldl (visitBindingElement me ms) ([], [], ctx)).2.2)).1,
         (resolveDefaultOrNamespaceIdentifier me ms
            ((elements.foldl (visitBindingElement me ms) ([], [], ctx)).2.2)).2) ∧
    ∀ q m', namedLocalsForPropertyName ((visitCallExpression info ctx).2).imports q m'
      = namedLocalsForPropertyName ctx.imports q m' := by
  have hlt := foldl_visitBindingElement_len_lt me ms elements ([], [], ctx) h6
  simp only [List.length_nil] at hlt
  have hne : ¬((elements.foldl (visitBindingElement me ms) ([], [], ctx)).1.length
      + (elements.foldl (visitBindingElement me ms) ([], [], ctx)).2.1.length
      = elements.length) := by omega
  have hvisit : visitCallExpression info ctx
      = (VisitResultE.identifier
          (resolveDefaultOrNamespaceIdentifier me ms
            ((elements.foldl (visitBindingElement me ms) ([], [], ctx)).2.2)).1,
         (resolveDefaultOrNamespaceIdentifier me ms
            ((elements.foldl (visitBindingElement me ms) ([], [], ctx)).2.2)).2) := by
    simp [visitCallExpression, h0, h1, h2, h3, h4, h5, destructuredBranch, hne]
  refine ⟨hvisit, ?_⟩
  intro q m'
  rw [hvisit]
  dsimp only
  rw [resolve_namedLocals]
  rw [foldl_visitBindingElement_imports]

/-- C9 witness: the amended theorem applied to
`const { <nested pattern> } = require("m")` from an empty registry. -/
theorem claim9_amended_witness :
    (⟨false, false, [], []⟩ : VisitorContext).onlyExports = false ∧
    (∃ e ∈ [(⟨none, AstName.nonIdent⟩ : BindingElementE)],
      e.propertyName = none ∧ e.name = AstName.nonIdent) ∧
    (visitCallExpression
        ⟨⟨true, some ("m")⟩, some ⟨false, [("a")]⟩, false, none,
          some (BindingNameKind.objectBindingPattern [⟨none, AstName.nonIdent⟩]), false⟩
        ⟨false, false, [], []⟩
      = (VisitResultE.identifier
          (resolveDefaultOrNamespaceIdentifier ⟨false, [("a")]⟩ ("m")
            (([(⟨none, AstName.nonIdent⟩ : BindingElementE)].foldl
              (visitBindingElement ⟨false, [("a")]⟩ ("m")) ([], [], ⟨false, false, [], []⟩)).2.2)).1,
         (resolveDefaultOrNamespaceIdentifier ⟨false, [("a")]⟩ ("m")
            (([(⟨none, AstName.nonIdent⟩ : BindingElementE)].foldl
              (visitBindingElement ⟨false, [("a")]⟩ ("m")) ([], [], ⟨false, false, [], []⟩)).2.2)).2) ∧
     ∀ q m', namedLocalsForPropertyName
        ((visitCallExpression
          ⟨⟨true, some ("m")⟩, some ⟨false, [("a")]⟩, false, none,
            some (BindingNameKind.objectBindingPattern [⟨none, AstName.nonIdent⟩]), false⟩
          ⟨false, false, [], []⟩).2).imports q m'
      = namedLocalsForPropertyName (⟨false, false, [], []⟩ : VisitorContext).imports q m') :=
  ⟨rfl, by decide,
    claim9_amended_thm
      ⟨⟨true, some ("m")⟩, some ⟨false, [("a")]⟩, false, none,
        some (BindingNameKind.objectBindingPattern [⟨none, AstName.nonIdent⟩]), false⟩
      ⟨false, false, [], []⟩ ("m") ⟨false, [("a")]⟩ [⟨none, AstName.nonIdent⟩]
      rfl rfl rfl (by decide) rfl rfl (by decide)⟩

/-- C8 witness: the amended theorem applied at a concrete unresolved call
site, in debug and in lenient mode. -/
theorem claim8_amended_witness :
    ((⟨false, true, [], []⟩ : VisitorContext).debug = true →
      visitCallExpression ⟨⟨true, some ("m")⟩, some ⟨true, [("a")]⟩, false, none, none, false⟩
          ⟨false, true, [], []⟩
        = (VisitResultE.throwTypeError ("Could not handle require() call"), ⟨false, true, [], []⟩)) ∧
    ((⟨false, true, [], []⟩ : VisitorContext).debug = false →
      visitCallExpression ⟨⟨true, some ("m")⟩, some ⟨true, [("a")]⟩, false, none, none, false⟩
          ⟨false, true, [], []⟩
        = (VisitResultE.unchanged, ⟨false, true, [], []⟩)) :=
  claim8_amended_thm
    ⟨⟨true, some ("m")⟩, some ⟨true, [("a")]⟩, false, none, none, false⟩
    ⟨false, true, [], []⟩ ("m") ⟨true, [("a")]⟩ rfl rfl rfl (by decide) rfl rfl rfl

end CjsToEsm
